import Mathlib

/-!
Verification of the core safety bridge of the `neon` repository
(`src/vm.rs`, `src/task.rs`): the dynamic borrow ledger and its guards,
the handle-scope discipline, the background-task handoff protocol, and
the bounds-checked argument accessors.

Raw addresses (`*const c_void` in the source) are modelled as `Nat`;
the two `HashSet<*const c_void>` fields of the ledger are modelled as
`Finset Nat`.  Rust's `Result<T, E>` is modelled as `Except E T` and
`&mut self` state is made explicit: a method mutating the ledger returns
the updated ledger together with its `Result` value.
-/

set_option autoImplicit false

deriving instance DecidableEq for Except

namespace Neon

/-- The error type of a failed loan acquisition (`enum LoanError` in
`src/vm.rs`): a mutable loan is outstanding on the address, or an
immutable loan freezes it. -/
inductive LoanError where
  | Mutating (p : Nat)
  | Frozen (p : Nat)
  deriving DecidableEq, Repr

/-- The borrow ledger (`struct Ledger` in `src/vm.rs`): one set of
addresses with an outstanding immutable loan and one set of addresses
with an outstanding mutable loan. -/
structure Ledger where
  immutable_loans : Finset Nat
  mutable_loans : Finset Nat
  deriving DecidableEq

namespace Ledger

/-- `Ledger::new`: both sets start empty. -/
def new : Ledger := ⟨∅, ∅⟩

/-- `Ledger::try_borrow`: fails with `Mutating(p)` when a mutable loan is
outstanding on `p`; otherwise records an immutable loan on `p` and
succeeds.  The first component is the ledger after the call (`&mut self`),
the second the returned `Result<(), LoanError>`. -/
def try_borrow (l : Ledger) (p : Nat) : Ledger × Except LoanError Unit :=
  if p ∈ l.mutable_loans then
    (l, .error (.Mutating p))
  else
    ({ l with immutable_loans := insert p l.immutable_loans }, .ok ())

/-- `Ledger::settle`: removes the immutable loan on `p` (a no-op when
absent). -/
def settle (l : Ledger) (p : Nat) : Ledger :=
  { l with immutable_loans := l.immutable_loans.erase p }

/-- `Ledger::try_borrow_mut`: fails with `Mutating(p)` when a mutable
loan is outstanding on `p`, else fails with `Frozen(p)` when an immutable
loan is outstanding on `p`; otherwise records a mutable loan and
succeeds. -/
def try_borrow_mut (l : Ledger) (p : Nat) : Ledger × Except LoanError Unit :=
  if p ∈ l.mutable_loans then
    (l, .error (.Mutating p))
  else if p ∈ l.immutable_loans then
    (l, .error (.Frozen p))
  else
    ({ l with mutable_loans := insert p l.mutable_loans }, .ok ())

/-- `Ledger::settle_mut`: removes the mutable loan on `p` (a no-op when
absent). -/
def settle_mut (l : Ledger) (p : Nat) : Ledger :=
  { l with mutable_loans := l.mutable_loans.erase p }

end Ledger

/-- One call into the ledger's mutating interface. -/
inductive LedgerOp where
  | tryBorrow (p : Nat)
  | settleOp (p : Nat)
  | tryBorrowMut (p : Nat)
  | settleMutOp (p : Nat)
  deriving DecidableEq

/-- Applying one ledger operation to a ledger: the state after the call
(`&mut self`); a failed acquisition leaves the ledger unchanged, exactly
as the early `return Err(..)` in the source does. -/
def LedgerOp.apply (l : Ledger) : LedgerOp → Ledger
  | .tryBorrow p => (l.try_borrow p).1
  | .settleOp p => l.settle p
  | .tryBorrowMut p => (l.try_borrow_mut p).1
  | .settleMutOp p => l.settle_mut p

/-- The ledger reached by a sequence of operations from `Ledger::new`. -/
def Ledger.run (ops : List LedgerOp) : Ledger :=
  ops.foldl LedgerOp.apply Ledger.new

/-- The exclusivity invariant: no address carries both an immutable and a
mutable loan at the same time. -/
def Ledger.exclusive (l : Ledger) : Prop :=
  ∀ p : Nat, ¬(p ∈ l.immutable_loans ∧ p ∈ l.mutable_loans)

instance (l : Ledger) : Decidable l.exclusive := by
  unfold Ledger.exclusive
  exact decidable_of_iff (∀ p ∈ l.immutable_loans, p ∉ l.mutable_loans)
    (by constructor <;> intro h p <;> intro hp <;>
        first
        | exact h p hp.1 hp.2
        | exact fun hm => h p ⟨hp, hm⟩)

lemma Ledger.exclusive_new : Ledger.new.exclusive := by
  intro p hp
  simp [Ledger.new] at hp

lemma LedgerOp.apply_exclusive (l : Ledger) (op : LedgerOp)
    (h : l.exclusive) : (op.apply l).exclusive := by
  cases op with
  | tryBorrow p =>
      simp only [LedgerOp.apply, Ledger.try_borrow]
      split
      · exact h
      · intro q hq
        rcases hq with ⟨hqi, hqm⟩
        simp only [Finset.mem_insert] at hqi
        rcases hqi with rfl | hqi
        · exact absurd hqm (by assumption)
        · exact h q ⟨hqi, hqm⟩
  | settleOp p =>
      intro q hq
      rcases hq with ⟨hqi, hqm⟩
      exact h q ⟨Finset.mem_of_mem_erase hqi, hqm⟩
  | tryBorrowMut p =>
      simp only [LedgerOp.apply, Ledger.try_borrow_mut]
      split
      · exact h
      · split
        · exact h
        · intro q hq
          rcases hq with ⟨hqi, hqm⟩
          simp only [Finset.mem_insert] at hqm
          rcases hqm with rfl | hqm
          · exact absurd hqi (by assumption)
          · exact h q ⟨hqi, hqm⟩
  | settleMutOp p =>
      intro q hq
      rcases hq with ⟨hqi, hqm⟩
      exact h q ⟨hqi, Finset.mem_of_mem_erase hqm⟩

lemma Ledger.foldl_exclusive (ops : List LedgerOp) :
    ∀ l : Ledger, l.exclusive → (ops.foldl LedgerOp.apply l).exclusive := by
  induction ops with
  | nil => intro l h; exact h
  | cons op rest ih =>
      intro l h
      exact ih (op.apply l) (op.apply_exclusive l h)

/-- A guard root (`struct VmGuard` in `src/vm.rs`): it owns one ledger
behind a `RefCell`. -/
structure VmGuard where
  ledger : Ledger
  deriving DecidableEq

/-- `VmGuard::new`: a fresh guard owns a fresh, empty ledger. -/
def VmGuard.new : VmGuard := ⟨Ledger.new⟩

/-- `Vm::lock` (the `Vm` trait's default method in `src/vm.rs`): every
call constructs a brand-new `VmGuard`, hence a brand-new ledger. -/
def Vm.lock : VmGuard := VmGuard.new

/-- `Ref::new`: borrows the guard's ledger and calls `try_borrow` on the
pointer's address.  The first component is the guard after the call, the
second the `Result`: `Ok` means the `Ref` was constructed. -/
def Ref.new (g : VmGuard) (p : Nat) : VmGuard × Except LoanError Unit :=
  let (l, r) := g.ledger.try_borrow p
  (⟨l⟩, r)

/-- `Drop for Ref`: settles the immutable loan on the guard's ledger. -/
def Ref.drop (g : VmGuard) (p : Nat) : VmGuard :=
  ⟨g.ledger.settle p⟩

/-- `RefMut::new`: borrows the guard's ledger and calls `try_borrow_mut`
on the pointer's address. -/
def RefMut.new (g : VmGuard) (p : Nat) : VmGuard × Except LoanError Unit :=
  let (l, r) := g.ledger.try_borrow_mut p
  (⟨l⟩, r)

/-- `Drop for RefMut`: settles the mutable loan on the guard's ledger. -/
def RefMut.drop (g : VmGuard) (p : Nat) : VmGuard :=
  ⟨g.ledger.settle_mut p⟩

end Neon

open Neon

/-- Claim C1: `try_borrow p` succeeds exactly when no mutable loan is
outstanding on `p` (so two immutable loans on `p` may coexist) and fails
with `Mutating p` when one is; `try_borrow_mut p` succeeds exactly when no
loan of either kind is outstanding on `p`, fails with `Mutating p` when a
mutable loan is outstanding, and fails with `Frozen p` when an immutable
(but no mutable) loan is outstanding. -/
theorem claim_c1_borrow_rules (l : Ledger) (p : Nat) :
    (p ∉ l.mutable_loans →
      (l.try_borrow p).2 = .ok () ∧
      ((l.try_borrow p).1.try_borrow p).2 = .ok ()) ∧
    (p ∈ l.mutable_loans → (l.try_borrow p).2 = .error (.Mutating p)) ∧
    (p ∉ l.mutable_loans → p ∉ l.immutable_loans →
      (l.try_borrow_mut p).2 = .ok ()) ∧
    (p ∈ l.mutable_loans → (l.try_borrow_mut p).2 = .error (.Mutating p)) ∧
    (p ∉ l.mutable_loans → p ∈ l.immutable_loans →
      (l.try_borrow_mut p).2 = .error (.Frozen p)) := by
  refine ⟨?_, ?_, ?_, ?_, ?_⟩
  · intro hm
    constructor
    · simp [Ledger.try_borrow, hm]
    · simp [Ledger.try_borrow, hm]
  · intro hm
    simp [Ledger.try_borrow, hm]
  · intro hm hi
    simp [Ledger.try_borrow_mut, hm, hi]
  · intro hm
    simp [Ledger.try_borrow_mut, hm]
  · intro hm hi
    simp [Ledger.try_borrow_mut, hm, hi]

/-- Witness for C1: the rules evaluated on concrete ledgers — on the empty
ledger two immutable borrows of address `0` succeed and a mutable borrow
succeeds, on a ledger with a mutable loan on `0` both acquisitions fail
with `Mutating 0`, and on a ledger with only an immutable loan on `0` a
mutable borrow fails with `Frozen 0`. -/
theorem claim_c1_borrow_rules_witness :
    (Ledger.new.try_borrow 0).2 = .ok () ∧
    ((Ledger.new.try_borrow 0).1.try_borrow 0).2 = .ok () ∧
    (Ledger.new.try_borrow_mut 0).2 = .ok () ∧
    ((⟨∅, {0}⟩ : Ledger).try_borrow 0).2 = .error (.Mutating 0) ∧
    ((⟨∅, {0}⟩ : Ledger).try_borrow_mut 0).2 = .error (.Mutating 0) ∧
    ((⟨{0}, ∅⟩ : Ledger).try_borrow_mut 0).2 = .error (.Frozen 0) := by
  have h1 := claim_c1_borrow_rules Ledger.new 0
  have h2 := claim_c1_borrow_rules (⟨∅, {0}⟩ : Ledger) 0
  have h3 := claim_c1_borrow_rules (⟨{0}, ∅⟩ : Ledger) 0
  refine ⟨(h1.1 (by decide)).1, (h1.1 (by decide)).2,
          h1.2.2.1 (by decide) (by decide),
          h2.2.1 (by decide),
          h2.2.2.2.1 (by decide),
          h3.2.2.2.2 (by decide) (by decide)⟩

/-- Claim C2: every sequence of ledger operations starting from
`Ledger::new` preserves the exclusivity invariant — no address is ever
recorded in both the immutable-loan set and the mutable-loan set. -/
theorem claim_c2_exclusivity_invariant (ops : List LedgerOp) :
    (Ledger.run ops).exclusive :=
  Ledger.foldl_exclusive ops Ledger.new Ledger.exclusive_new

/-- Counterexample to claim C3 as stated: each `Vm::lock` call constructs
a fresh `VmGuard` with a fresh empty ledger, so after a first guard root
acquires a `RefMut` on address `0` (which succeeds and is still
outstanding in that root's ledger), a second guard root obtained by a
second `lock()` call performs the identical computation `RefMut.new
Vm.lock 0` — and succeeds instead of failing with `Mutating 0`. -/
theorem claim_c3_counterexample :
    (RefMut.new Vm.lock 0).2 = .ok () ∧
    0 ∈ (RefMut.new Vm.lock 0).1.ledger.mutable_loans ∧
    (RefMut.new Vm.lock 0).2 ≠ .error (.Mutating 0) := by decide

/-- Claim C3 amended: every `lock()` call yields a guard root with a
fresh empty ledger, so conflict detection is per guard root.  Through a
single guard root the claimed sequence does hold: the first `RefMut` on
`a` succeeds, a second acquisition through the same root while the first
loan is outstanding fails with `Mutating a`, and after the first loan is
released (`RefMut` drop) a new acquisition succeeds.  A second
acquisition through a second `lock()` root succeeds even while the first
root's loan is outstanding. -/
theorem claim_c3_amended_same_root (a : Nat) :
    Vm.lock.ledger = Ledger.new ∧
    (RefMut.new Vm.lock a).2 = .ok () ∧
    (RefMut.new (RefMut.new Vm.lock a).1 a).2 = .error (.Mutating a) ∧
    (RefMut.new (RefMut.drop (RefMut.new Vm.lock a).1 a) a).2 = .ok () := by
  refine ⟨rfl, ?_, ?_, ?_⟩ <;>
    simp [RefMut.new, RefMut.drop, Vm.lock, VmGuard.new, Ledger.new,
      Ledger.try_borrow_mut, Ledger.settle_mut]

/-- Counterexample to claim C4 as stated: the immutable-loan set does not
track multiplicity.  Acquiring two immutable loans on address `0` (both
calls succeed) and settling only once leaves no immutable loan recorded,
so the subsequent `try_borrow_mut 0` succeeds instead of failing with
`Frozen 0`. -/
theorem claim_c4_counterexample :
    (Ledger.new.try_borrow 0).2 = .ok () ∧
    ((Ledger.new.try_borrow 0).1.try_borrow 0).2 = .ok () ∧
    ((((Ledger.new.try_borrow 0).1.try_borrow 0).1.settle 0).try_borrow_mut
      0).2 = .ok () ∧
    ((((Ledger.new.try_borrow 0).1.try_borrow 0).1.settle 0).try_borrow_mut
      0).2 ≠ .error (.Frozen 0) := by decide

/-- Claim C4 amended: repeated immutable loans on the same address are
collapsed by the set — a second `try_borrow` on an already-frozen address
leaves the ledger unchanged, and a single `settle` removes the address
from the immutable-loan set entirely, so after acquiring two immutable
loans on `p` and settling once, `try_borrow_mut p` succeeds (no `Frozen`
failure) whenever no mutable loan exists on `p`. -/
theorem claim_c4_amended (l : Ledger) (p : Nat)
    (h : p ∉ l.mutable_loans) :
    (l.try_borrow p).2 = .ok () ∧
    ((l.try_borrow p).1.try_borrow p).1 = (l.try_borrow p).1 ∧
    p ∉ (((l.try_borrow p).1.try_borrow p).1.settle p).immutable_loans ∧
    ((((l.try_borrow p).1.try_borrow p).1.settle p).try_borrow_mut p).2 =
      .ok () := by
  refine ⟨?_, ?_, ?_, ?_⟩ <;>
    simp [Ledger.try_borrow, Ledger.settle, Ledger.try_borrow_mut, h,
      Finset.insert_idem, Finset.not_mem_erase]

/-- Witness for the amended C4 at the empty ledger and address `0`. -/
theorem claim_c4_amended_witness :
    (Ledger.new.try_borrow 0).2 = .ok () ∧
    ((Ledger.new.try_borrow 0).1.try_borrow 0).1 =
      (Ledger.new.try_borrow 0).1 ∧
    0 ∉ (((Ledger.new.try_borrow 0).1.try_borrow 0).1.settle
      0).immutable_loans ∧
    ((((Ledger.new.try_borrow 0).1.try_borrow 0).1.settle 0).try_borrow_mut
      0).2 = .ok () :=
  claim_c4_amended Ledger.new 0 (by decide)

/-- Claim C8: settling an absent immutable (resp. mutable) loan is a
no-op on the whole ledger, and settling a loan on address `a` never
changes what loans are recorded on any other address `b`. -/
theorem claim_c8_settle_frame (l : Ledger) (a b : Nat) :
    (a ∉ l.immutable_loans → l.settle a = l) ∧
    (a ∉ l.mutable_loans → l.settle_mut a = l) ∧
    (b ≠ a →
      (b ∈ (l.settle a).immutable_loans ↔ b ∈ l.immutable_loans) ∧
      (b ∈ (l.settle a).mutable_loans ↔ b ∈ l.mutable_loans) ∧
      (b ∈ (l.settle_mut a).immutable_loans ↔ b ∈ l.immutable_loans) ∧
      (b ∈ (l.settle_mut a).mutable_loans ↔ b ∈ l.mutable_loans)) := by
  obtain ⟨imm, mu⟩ := l
  refine ⟨?_, ?_, ?_⟩
  · intro h
    simp [Ledger.settle, Finset.erase_eq_of_not_mem h]
  · intro h
    simp [Ledger.settle_mut, Finset.erase_eq_of_not_mem h]
  · intro hne
    simp [Ledger.settle, Ledger.settle_mut, Finset.mem_erase, hne]

/-- Witness for C8 at the ledger with an immutable loan on `1` and a
mutable loan on `2`, settling the absent address `0` and observing the
unrelated address `1`. -/
theorem claim_c8_settle_frame_witness :
    ((⟨{1}, {2}⟩ : Ledger).settle 0 = ⟨{1}, {2}⟩) ∧
    ((⟨{1}, {2}⟩ : Ledger).settle_mut 0 = ⟨{1}, {2}⟩) ∧
    (1 ∈ ((⟨{1}, {2}⟩ : Ledger).settle 0).immutable_loans ↔
      1 ∈ ({1} : Finset Nat)) := by
  have h := claim_c8_settle_frame (⟨{1}, {2}⟩ : Ledger) 0 1
  exact ⟨h.1 (by decide), h.2.1 (by decide), (h.2.2 (by decide)).1⟩

namespace Neon

/-- An observable event on the VM's native handle-scope stack: arena `i`
is entered (`neon_runtime::scope::enter` in `Scope::with`) or exited
(`neon_runtime::scope::exit` in `Drop for Scope`). -/
inductive ScopeEvent where
  | enter (i : Nat)
  | leave (i : Nat)
  deriving DecidableEq

/-- A nest of `Scope::with` invocations on one thread.  `ret` is a body
that returns normally, `err` a body that exits via an error/unwind path,
`seq` runs two bodies in order (stopping at the first error, as `?` and
unwinding do), and `nest p` is `Scope::with (fun scope => p)`. -/
inductive ScopeProg where
  | ret : ScopeProg
  | err : ScopeProg
  | seq : ScopeProg → ScopeProg → ScopeProg
  | nest : ScopeProg → ScopeProg

/-- Result of executing a nest of scopes: whether the body completed
normally, the next fresh arena id, and the recorded event trace. -/
structure RunResult where
  ok : Bool
  next : Nat
  trace : List ScopeEvent
  deriving DecidableEq

/-- Executing a nest of `Scope::with` invocations, threading a fresh-id
counter naming the arenas.  `nest` mirrors `Scope::with` together with
`Drop for Scope`: the arena is entered before the closure runs, and the
`Drop` impl exits it when the closure returns or unwinds, so the exit
event is emitted on the normal and the error path alike. -/
def ScopeProg.run : ScopeProg → Nat → RunResult
  | .ret, n => ⟨true, n, []⟩
  | .err, n => ⟨false, n, []⟩
  | .seq a b, n =>
      let ra := a.run n
      if ra.ok then
        let rb := b.run ra.next
        ⟨rb.ok, rb.next, ra.trace ++ rb.trace⟩
      else
        ⟨false, ra.next, ra.trace⟩
  | .nest p, n =>
      let r := p.run (n + 1)
      ⟨r.ok, r.next, ScopeEvent.enter n :: (r.trace ++ [ScopeEvent.leave n])⟩

/-- The LIFO checker: threads a stack of open arenas through a trace and
fails when an exit does not name the most recently entered open arena. -/
def checkLIFO : List ScopeEvent → List Nat → Option (List Nat)
  | [], s => some s
  | ScopeEvent.enter i :: rest, s => checkLIFO rest (i :: s)
  | ScopeEvent.leave i :: rest, s =>
      match s with
      | [] => none
      | j :: s' => if i = j then checkLIFO rest s' else none

/-- Number of occurrences of one event in a trace. -/
def countEv (e : ScopeEvent) : List ScopeEvent → Nat
  | [] => 0
  | x :: rest => (if x = e then 1 else 0) + countEv e rest

lemma countEv_append (e : ScopeEvent) (t1 t2 : List ScopeEvent) :
    countEv e (t1 ++ t2) = countEv e t1 + countEv e t2 := by
  induction t1 with
  | nil => simp [countEv]
  | cons x rest ih => simp [countEv, ih]; omega

lemma checkLIFO_append (t1 t2 : List ScopeEvent) (s : List Nat) :
    checkLIFO (t1 ++ t2) s =
      (checkLIFO t1 s).bind (fun s' => checkLIFO t2 s') := by
  induction t1 generalizing s with
  | nil => rfl
  | cons e rest ih =>
      cases e with
      | enter i => simpa [checkLIFO] using ih (i :: s)
      | leave i =>
          cases s with
          | nil => rfl
          | cons j s' =>
              by_cases h : i = j
              · simp [checkLIFO, h, ih]
              · simp [checkLIFO, h]

lemma run_next_mono (p : ScopeProg) : ∀ n : Nat, n ≤ (p.run n).next := by
  induction p with
  | ret => intro n; exact Nat.le_refl n
  | err => intro n; exact Nat.le_refl n
  | seq a b iha ihb =>
      intro n
      cases hok : (a.run n).ok with
      | true =>
          simp only [ScopeProg.run, hok, if_true]
          exact Nat.le_trans (iha n) (ihb (a.run n).next)
      | false =>
          simp only [ScopeProg.run, hok, Bool.false_eq_true, if_false]
          exact iha n
  | nest p ih =>
      intro n
      simp only [ScopeProg.run]
      exact Nat.le_trans (Nat.le_succ n) (ih (n + 1))

lemma run_enter_range (p : ScopeProg) :
    ∀ n i : Nat, ¬(n ≤ i ∧ i < (p.run n).next) →
      countEv (.enter i) (p.run n).trace = 0 := by
  induction p with
  | ret => intro n i _; rfl
  | err => intro n i _; rfl
  | seq a b iha ihb =>
      intro n i hrange
      cases hok : (a.run n).ok with
      | true =>
          simp only [ScopeProg.run, hok, if_true] at hrange ⊢
          rw [countEv_append]
          have h1 := run_next_mono a n
          have h2 := run_next_mono b (a.run n).next
          rw [iha n i (by omega), ihb (a.run n).next i (by omega)]
      | false =>
          simp only [ScopeProg.run, hok, Bool.false_eq_true, if_false] at hrange ⊢
          exact iha n i hrange
  | nest p ih =>
      intro n i hrange
      simp only [ScopeProg.run] at hrange ⊢
      have hmono := run_next_mono p (n + 1)
      rw [countEv, countEv_append]
      have hp := ih (n + 1) i (by omega)
      have hne : ScopeEvent.enter n ≠ ScopeEvent.enter i := by
        intro hcon
        cases hcon
        omega
      rw [if_neg hne, hp]
      rfl

lemma run_enter_le_one (p : ScopeProg) :
    ∀ n i : Nat, countEv (.enter i) (p.run n).trace ≤ 1 := by
  induction p with
  | ret => intro n i; exact Nat.zero_le 1
  | err => intro n i; exact Nat.zero_le 1
  | seq a b iha ihb =>
      intro n i
      cases hok : (a.run n).ok with
      | true =>
          simp only [ScopeProg.run, hok, if_true]
          rw [countEv_append]
          by_cases hi : n ≤ i ∧ i < (a.run n).next
          · have hb := run_enter_range b (a.run n).next i (by omega)
            have := iha n i
            omega
          · have ha := run_enter_range a n i hi
            have := ihb (a.run n).next i
            omega
      | false =>
          simp only [ScopeProg.run, hok, Bool.false_eq_true, if_false]
          exact iha n i
  | nest p ih =>
      intro n i
      simp only [ScopeProg.run]
      rw [countEv, countEv_append]
      by_cases hni : n = i
      · have hp := run_enter_range p (n + 1) i (by omega)
        rw [if_pos (by rw [hni]), hp]
        rfl
      · have hne : ScopeEvent.enter n ≠ ScopeEvent.enter i := by
          intro hcon; cases hcon; exact hni rfl
        rw [if_neg hne]
        have := ih (n + 1) i
        simpa [countEv] using this

lemma run_counts_eq (p : ScopeProg) :
    ∀ n i : Nat, countEv (.enter i) (p.run n).trace =
      countEv (.leave i) (p.run n).trace := by
  induction p with
  | ret => intro n i; rfl
  | err => intro n i; rfl
  | seq a b iha ihb =>
      intro n i
      cases hok : (a.run n).ok with
      | true =>
          simp only [ScopeProg.run, hok, if_true]
          rw [countEv_append, countEv_append, iha n i, ihb (a.run n).next i]
      | false =>
          simp only [ScopeProg.run, hok, Bool.false_eq_true, if_false]
          exact iha n i
  | nest p ih =>
      intro n i
      have hp := ih (n + 1) i
      by_cases hni : n = i
      · subst hni
        simp only [ScopeProg.run] at hp ⊢
        simp [countEv, countEv_append]
        omega
      · simp only [ScopeProg.run] at hp ⊢
        simp [countEv, countEv_append, hni]
        omega

lemma run_checkLIFO (p : ScopeProg) :
    ∀ (n : Nat) (s : List Nat), checkLIFO (p.run n).trace s = some s := by
  induction p with
  | ret => intro n s; rfl
  | err => intro n s; rfl
  | seq a b iha ihb =>
      intro n s
      cases hok : (a.run n).ok with
      | true =>
          simp only [ScopeProg.run, hok, if_true]
          rw [checkLIFO_append, iha n s]
          exact ihb (a.run n).next s
      | false =>
          simp only [ScopeProg.run, hok, Bool.false_eq_true, if_false]
          exact iha n s
  | nest p ih =>
      intro n s
      simp only [ScopeProg.run, checkLIFO]
      rw [checkLIFO_append, ih (n + 1) (n :: s)]
      simp [checkLIFO]

end Neon

/-- Claim C5: for every nest of `Scope::with` invocations on one thread —
including bodies that exit via an error/unwind path — the recorded trace
of arena entries and exits passes the LIFO checker starting and ending
with an empty stack (every exit names the most recently entered open
arena, and no arena is left open), and every arena entered is exited
exactly once (enter and exit counts agree, and no arena is entered more
than once). -/
theorem claim_c5_scope_lifo (p : ScopeProg) (n : Nat) :
    checkLIFO (p.run n).trace [] = some [] ∧
    ∀ i : Nat,
      countEv (.enter i) (p.run n).trace =
        countEv (.leave i) (p.run n).trace ∧
      countEv (.enter i) (p.run n).trace ≤ 1 :=
  ⟨run_checkLIFO p n [],
   fun i => ⟨run_counts_eq p n i, run_enter_le_one p n i⟩⟩

namespace Neon

/-- `struct Throw` in `src/vm.rs`: the sentinel indicating a VM-level
exception is pending.  It carries no data. -/
inductive Throw where
  | mk
  deriving DecidableEq

/-- A task (`trait Task` in `src/task.rs`) with its payload applied:
`perform` is the `Result` that `Task::perform(&self)` produces on the
worker thread, and `complete` is `Task::complete(self, vm, result)` as a
function of the incoming result, returning `JsResult<Self::JsEvent>`
(modelled as `Except Throw JsEvent`). -/
structure Task (Output Error JsEvent : Type) where
  perform : Except Error Output
  complete : Except Error Output → Except Throw JsEvent

/-- `perform_task` (`src/task.rs`): unboxes the task behind its raw
pointer, runs `perform`, and re-boxes the produced `Result` for the
runtime to carry to the completion thunk.  The boxing round-trip is the
identity on the result value. -/
def perform_task {O E J : Type} (t : Task O E J) : Except E O :=
  t.perform

/-- `complete_task` (`src/task.rs`): unboxes the carried result and the
task, enters a fresh scope (`TaskContext::with`), runs `complete`, and
assigns the produced VM value to the output slot `*out` only when
`complete` returns `Ok`; on `Err` the slot keeps its previous value. -/
def complete_task {O E J : Type} (t : Task O E J) (result : Except E O)
    (out : Option J) : Option J :=
  match t.complete result with
  | .ok v => some v
  | .error _ => out

/-- Modelled from the spec: `neon_runtime::task::schedule` (the host
runtime's background-work scheduler, not part of `src/`) runs
`perform_task` on a worker thread, hands the boxed result pointer
unchanged to `complete_task` on the VM thread with an unwritten output
slot, and then invokes the registered JavaScript callback
(`function callback(err, value)`) with the written output slot as the
success value.  `schedule_outcome t = some v` means the callback is
invoked with success value `v`; `none` means no value was written for
it. -/
def schedule_outcome {O E J : Type} (t : Task O E J) : Option J :=
  complete_task t (perform_task t) none

/-- The kind of a thrown VM error (`js::error::Kind`; only `TypeError` is
used by the argument accessors). -/
inductive ErrKind where
  | TypeError
  deriving DecidableEq

/-- A call's callback info (`struct CallbackInfo` in `src/vm.rs`),
modelled by the call's argument list; `V` is the type of VM values. -/
structure CallbackInfo (V : Type) where
  args : List V

/-- `CallbackInfo::len`: the declared argument count, an `i32` in the
source, modelled as `Int`. -/
def CallbackInfo.len {V : Type} (info : CallbackInfo V) : Int :=
  Int.ofNat info.args.length

/-- `CallbackInfo::get` (the optional accessor behind
`CallContext::argument_opt`): a negative index or one at least `len`
yields `None`; in range, the runtime's argument fetch is modelled as list
indexing. -/
def CallbackInfo.get {V : Type} (info : CallbackInfo V) (i : Int) :
    Option V :=
  if i < 0 ∨ i ≥ info.len then none
  else info.args[i.toNat]?

/-- `CallbackInfo::require` (the required accessor behind
`CallContext::argument`): a negative index or one at least `len` returns
the thrown condition produced by
`JsError::throw(Kind::TypeError, "not enough arguments")`; in range it
returns the argument.  The thrown condition itself is modelled from the
spec (`JsError::throw` lives in `js/error`, not under `src/`) as the pair
of its kind and message. -/
def CallbackInfo.require {V : Type} (info : CallbackInfo V) (i : Int) :
    Except (ErrKind × String) V :=
  if i < 0 ∨ i ≥ info.len then .error (.TypeError, "not enough arguments")
  else
    match info.args[i.toNat]? with
    | some v => .ok v
    | none => .error (.TypeError, "not enough arguments")

end Neon

/-- Claim C6: the `Result` handed to `complete` on the VM thread is
exactly the `Result` that `perform` produced on the worker thread
(`perform_task` preserves it through the boxing round-trip and the
scheduler carries it unchanged), and when `complete` returns `Ok v` the
output slot is written with `v`, which the registered callback receives
as its success value. -/
theorem claim_c6_task_handoff {O E J : Type} (t : Task O E J) (v : J)
    (h : t.complete t.perform = .ok v) :
    perform_task t = t.perform ∧ schedule_outcome t = some v := by
  refine ⟨rfl, ?_⟩
  simp [schedule_outcome, complete_task, perform_task, h]

/-- Witness for C6: a task whose `perform` returns `Ok 42` and whose
`complete` converts the number unchanged; the callback receives `42` as
its success value. -/
theorem claim_c6_task_handoff_witness :
    schedule_outcome
      (⟨.ok 42, fun r => match r with
        | .ok n => .ok n
        | .error _ => .error Throw.mk⟩ : Task Nat Unit Nat) = some 42 :=
  (claim_c6_task_handoff
    (⟨.ok 42, fun r => match r with
      | .ok n => .ok n
      | .error _ => .error Throw.mk⟩ : Task Nat Unit Nat) 42 rfl).2

/-- Claim C7: when the value-conversion step of task completion fails
(`Task::complete` returns `Err`), `complete_task` leaves the output slot
exactly as it was — in particular unwritten (`none`) — rather than
writing any value for the callback. -/
theorem claim_c7_conversion_failure {O E J : Type} (t : Task O E J)
    (result : Except E O) (out : Option J) (e : Throw)
    (h : t.complete result = .error e) :
    complete_task t result out = out := by
  simp [complete_task, h]

/-- Witness for C7: a task whose conversion always fails leaves the
unwritten output slot unwritten. -/
theorem claim_c7_conversion_failure_witness :
    complete_task
      (⟨.ok 0, fun _ => .error Throw.mk⟩ : Task Nat Unit Nat)
      (.ok 0) none = none :=
  claim_c7_conversion_failure
    (⟨.ok 0, fun _ => .error Throw.mk⟩ : Task Nat Unit Nat)
    (.ok 0) none Throw.mk rfl

/-- Claim C9: for every call with declared argument count `len` and every
index at least `len`, the optional accessor `get` returns `None` and the
required accessor `require` returns the thrown
`TypeError("not enough arguments")` condition. -/
theorem claim_c9_args_past_count {V : Type} (info : CallbackInfo V)
    (i : Int) (h : info.len ≤ i) :
    info.get i = none ∧
    info.require i = .error (.TypeError, "not enough arguments") := by
  constructor
  · rw [CallbackInfo.get, if_pos (Or.inr h)]
  · rw [CallbackInfo.require, if_pos (Or.inr h)]

/-- Witness for C9: a call with one argument, read at index `1`. -/
theorem claim_c9_args_past_count_witness :
    (CallbackInfo.mk [10] : CallbackInfo Nat).get 1 = none ∧
    (CallbackInfo.mk [10] : CallbackInfo Nat).require 1 =
      .error (.TypeError, "not enough arguments") :=
  claim_c9_args_past_count (CallbackInfo.mk [10]) 1 (by decide)

/-- Claim C10: for every negative index, `get` returns `None` and
`require` returns the thrown `TypeError("not enough arguments")`
condition, exactly as for an index past the argument count. -/
theorem claim_c10_args_negative_index {V : Type} (info : CallbackInfo V)
    (i : Int) (h : i < 0) :
    info.get i = none ∧
    info.require i = .error (.TypeError, "not enough arguments") := by
  constructor
  · rw [CallbackInfo.get, if_pos (Or.inl h)]
  · rw [CallbackInfo.require, if_pos (Or.inl h)]

/-- Witness for C10: a call with one argument, read at index `-1`. -/
theorem claim_c10_args_negative_index_witness :
    (CallbackInfo.mk [10] : CallbackInfo Nat).get (-1) = none ∧
    (CallbackInfo.mk [10] : CallbackInfo Nat).require (-1) =
      .error (.TypeError, "not enough arguments") :=
  claim_c10_args_negative_index (CallbackInfo.mk [10]) (-1) (by decide)
